import Mathlib

/-!
Verification development for the IMEI forensics derivation engine
(`src/App.tsx` and the `MetricsView` statistics component).

The TypeScript core is shallowly embedded: JS numbers appearing in
threshold comparisons (voltages, GSM, HDOP, filter bounds, failure-rate
arithmetic) are modelled as `ℚ`, epoch timestamps and downtimes as `ℤ`,
nullable fields as `Option`, and JS `Map`s as functions to `Option`
updated pointwise.  `Array.prototype.sort` with a numeric comparator is
modelled by the stable `List.insertionSort` on the corresponding
"keep-`a`-first" relation.
-/

set_option maxHeartbeats 1000000

/-- Risk tier of an enriched change event (`riskLevel` in `App.tsx`). -/
inductive Risk where
  | safe
  | warning
  | critical
  | unknown
deriving DecidableEq

/-- Telemetry point reading (`LocationData` in `App.tsx`).  All fields are
nullable; `none` models JS `null`/`undefined`. -/
structure LocationData where
  ts : Option Int := none
  time : Option String := none
  lat : Option ℚ := none
  lon : Option ℚ := none
  iccid : Option String := none
  io_11 : Option Int := none
  io_14 : Option Int := none
  pwr_ext : Option ℚ := none
  pwr_int : Option ℚ := none
  gsm : Option ℚ := none
  hdop : Option ℚ := none
deriving DecidableEq

/-- One raw device-swap record (`ImeiLog` in `App.tsx`). -/
structure ImeiLog where
  unidad : String
  unit_id : Int
  imei_ant : String
  imei_nuevo : String
  cambio_ts : Int
  cambio_time : String
  last : Option LocationData := none
  first_after : Option LocationData := none
  downtime_seconds : Option Int := none
  status : String := "ok"
deriving DecidableEq

/-- Filter configuration (`FilterState` in `App.tsx`).  The empty-string
sentinel of `minDowntime`/`maxDowntime` is modelled as `none`. -/
structure FilterState where
  search : String := ""
  dateFrom : String := ""
  dateTo : String := ""
  minDowntime : Option ℚ := none
  maxDowntime : Option ℚ := none
  onlyWithDowntime : Bool := false
  hideInstallations : Bool := false
  onlyMultipleChanges : Bool := false
  onlyPowerCuts : Bool := false
deriving DecidableEq

/-- Enriched change record (`EnrichedChangeLog` in `App.tsx`).  The spread
`...log` of the source is the `toImeiLog` parent, with `downtime_seconds`
overridden by the enricher's final downtime. -/
structure EnrichedChangeLog extends ImeiLog where
  id : String
  derivedIccid : String
  previousIccid : String
  riskLevel : Risk
  isInstallation : Bool
  isPowerCut : Bool
  isSimChange : Bool
  isLowSignal : Bool
  hasGpsPrecisionIssue : Bool
  previousImeiLifespanSeconds : Option Int
deriving DecidableEq

/-- Closed lifecycle interval (`LifespanInterval` in `App.tsx`). -/
structure LifespanInterval where
  imei : String
  start_ts : Int
  start_date : String
  end_ts : Int
  end_date : String
  duration_seconds : Int
deriving DecidableEq

/-- Per-unit lifecycle summary (`UnitHistory` in `App.tsx`). -/
structure UnitHistory where
  unidad : String
  current_imei : String
  current_start_date : String
  current_duration_seconds : Int
  history : List LifespanInterval
  failure_rate_index : ℚ
deriving DecidableEq

/-!
## Record Parser (`processNdjson`, App.tsx lines 45-67)

An input line is abstracted by what `processNdjson` observes of it:
whether `line.trim()` is empty, and the result of `JSON.parse` —
either an exception (`parsed = none`) or a decoded object carrying a
`status` field (`parsed = some j`, status read from `j.status`).
-/

/-- Abstraction of one input line as observed by the parser. -/
structure Line where
  blank : Bool
  parsed : Option ImeiLog
deriving DecidableEq

/-- The `lines.forEach` body of `processNdjson`: skip blank lines, push
records that decode with `status = "ok"`, count every other non-blank
line as an error. -/
def processStep (acc : List ImeiLog × Nat) (line : Line) : List ImeiLog × Nat :=
  if line.blank then acc
  else
    match line.parsed with
    | some j => if j.status = "ok" then (acc.1 ++ [j], acc.2) else (acc.1, acc.2 + 1)
    | none => (acc.1, acc.2 + 1)

/-- `processNdjson` (App.tsx lines 45-67): returns the accepted records
and the error count. -/
def processNdjson (lines : List Line) : List ImeiLog × Nat :=
  lines.foldl processStep ([], 0)

/-- Acceptance criterion stated by the spec: a line contributes a record
iff it is non-blank, decodes, and its status is `"ok"`. -/
def acceptedOf (l : Line) : Option ImeiLog :=
  if l.blank then none
  else
    match l.parsed with
    | some j => if j.status = "ok" then some j else none
    | none => none

/-!
## Filter Engine (App.tsx lines 106-150)
-/

/-- JS `new Date(s)` used only inside ordering comparisons; modelled as an
optional numeric value, with invalid dates (JS `NaN`) making every
comparison false, matching `NaN` comparison semantics. -/
def dateNum (s : String) : Option Int :=
  s.toInt?

/-- One JS `new Date(a) < new Date(b)` comparison. -/
def dateLt (a b : String) : Bool :=
  match dateNum a, dateNum b with
  | some x, some y => decide (x < y)
  | _, _ => false

/-- Effective downtime (App.tsx lines 140-142 and 185-188): stored
`downtime_seconds` if non-null, else `first_after.ts - last.ts` when both
timestamps are present and truthy (a JS timestamp equal to `0` is falsy
and disables the fallback).  The enricher (lines 185-188) recomputes the
same value with the same truthiness checks. -/
def effDowntime (log : ImeiLog) : Option Int :=
  match log.downtime_seconds with
  | some d => some d
  | none =>
    match log.first_after, log.last with
    | some fa, some l =>
      match fa.ts, l.ts with
      | some fts, some lts => if fts ≠ 0 ∧ lts ≠ 0 then some (fts - lts) else none
      | _, _ => none
    | _, _ => none

/-- Per-unit event counts over the full raw collection
(`unitChangeCounts`, App.tsx lines 106-112), as the function the built
`Map` denotes (`get(u) || 0`). -/
def unitChangeCounts (raw : List ImeiLog) : String → Nat :=
  raw.foldl (fun counts log => fun u => if u = log.unidad then counts u + 1 else counts u)
    (fun _ => 0)

/-- The `minDowntime` bound check (App.tsx line 145): an unset bound
passes; otherwise the event passes unless `(effectiveDowntime || 0)` is
below the bound. -/
def minDowntimeOk (f : FilterState) (log : ImeiLog) : Bool :=
  match f.minDowntime with
  | none => true
  | some m => !decide ((((effDowntime log).getD 0 : Int) : ℚ) < m)

/-- The `maxDowntime` bound check (App.tsx line 146). -/
def maxDowntimeOk (f : FilterState) (log : ImeiLog) : Bool :=
  match f.maxDowntime with
  | none => true
  | some mx => !decide (mx < (((effDowntime log).getD 0 : Int) : ℚ))

/-- JS `s.trim()`: strip leading and trailing whitespace, modelled on the
character list. -/
def jsTrim (s : String) : String :=
  ⟨((s.data.dropWhile Char.isWhitespace).reverse.dropWhile Char.isWhitespace).reverse⟩

/-- JS `hay.includes(needle)`: substring containment on character lists. -/
def substrIn (needle hay : List Char) : Bool :=
  needle.isPrefixOf hay ||
    match hay with
    | [] => false
    | _ :: t => substrIn needle t

/-- The filter predicate of `filteredLogs` (App.tsx lines 115-148): the
early-return chain written as a conjunction, in source order. -/
def filterPred (f : FilterState) (counts : String → Nat) (log : ImeiLog) : Bool :=
  ((f.search == "") || substrIn f.search.toLower.data log.unidad.toLower.data) &&
  (!(f.hideInstallations && ((log.imei_ant == "") || (jsTrim log.imei_ant == "")))) &&
  ((f.dateFrom == "") || !dateLt log.cambio_time f.dateFrom) &&
  ((f.dateTo == "") || !dateLt f.dateTo log.cambio_time) &&
  ((!f.onlyMultipleChanges) || decide (1 < counts log.unidad)) &&
  ((!f.onlyPowerCuts) ||
    (match log.last with
     | some loc =>
       match loc.pwr_ext with
       | some v => decide (v < 5)
       | none => false
     | none => false)) &&
  ((!f.onlyWithDowntime) || (effDowntime log).isSome) &&
  minDowntimeOk f log &&
  maxDowntimeOk f log

/-- `filteredLogs` (App.tsx lines 114-150); the multiple-changes counts
come from the collection being filtered. -/
def filteredLogs (raw : List ImeiLog) (f : FilterState) : List ImeiLog :=
  raw.filter (filterPred f (unitChangeCounts raw))

/-!
## Lifespan Calculator (`lifespanMap`, App.tsx lines 74-103)
-/

/-- Composite key `` `${unidad}-${cambio_ts}-${imei_nuevo}` `` (line 97). -/
def mkKey (u : String) (ts : Int) (imei : String) : String :=
  u ++ "-" ++ toString ts ++ "-" ++ imei

/-- `Map.set` on a string-keyed map of numbers, as pointwise update. -/
def mapSet (m : String → Option Int) (k : String) (v : Int) : String → Option Int :=
  fun x => if x = k then some v else m x

/-- Iteration order of a JS `Map` built by grouping: unit names in order
of first occurrence. -/
def firstOccKeys {α : Type} (key : α → String) : List α → List String
  | [] => []
  | x :: xs => key x :: (firstOccKeys key xs).filter (fun v => v != key x)

/-- The group a unit name is mapped to: its events in input order. -/
def groupOf (u : String) (raw : List ImeiLog) : List ImeiLog :=
  raw.filter (fun l => l.unidad == u)

/-- `logs.sort((a, b) => a.cambio_ts - b.cambio_ts)` — stable ascending
sort by timestamp. -/
def sortTS (l : List ImeiLog) : List ImeiLog :=
  List.insertionSort (fun a b => a.cambio_ts ≤ b.cambio_ts) l

/-- The `for (let i = 1; ...)` loop of lines 89-99: record, for each
consecutive pair, the previous identifier's lifespan under the current
event's composite key. -/
def addPairs : (String → Option Int) → List ImeiLog → (String → Option Int)
  | m, prev :: current :: rest =>
    addPairs
      (mapSet m (mkKey current.unidad current.cambio_ts current.imei_nuevo)
        (current.cambio_ts - prev.cambio_ts))
      (current :: rest)
  | m, _ => m

/-- `lifespanMap` (App.tsx lines 74-103): group the raw collection by
unit, sort each group chronologically, and record consecutive deltas. -/
def lifespanMap (raw : List ImeiLog) : String → Option Int :=
  (firstOccKeys (·.unidad) raw).foldl (fun m u => addPairs m (sortTS (groupOf u raw)))
    (fun _ => none)

/-!
## Forensic Enricher (`enrichedChanges`, App.tsx lines 153-220)
-/

/-- `getEffectiveIccid` (App.tsx lines 155-161): prefer a truthy direct
ICCID that is not the all-zero placeholder, else concatenate the two
truthy fragments, else empty. -/
def getEffectiveIccid (loc : Option LocationData) : String :=
  match loc with
  | none => ""
  | some l =>
    if ((l.iccid.getD "") != "") && ((l.iccid.getD "") != "00000000000") then
      l.iccid.getD ""
    else
      match l.io_11, l.io_14 with
      | some a, some b => if a != 0 && b != 0 then toString a ++ toString b else ""
      | _, _ => ""

/-- The enrichment of one filtered event (body of the `map` at App.tsx
lines 154-218), given the lifespan map and the event's index. -/
def enrichLog (m : String → Option Int) (idx : Nat) (log : ImeiLog) : EnrichedChangeLog :=
  let oldIccid := getEffectiveIccid log.last
  let newIccid := getEffectiveIccid log.first_after
  let isPowerCut : Bool :=
    match log.last with
    | some loc =>
      match loc.pwr_ext with
      | some v => decide (0 ≤ v ∧ v < 5)
      | none => false
    | none => false
  let isSimChange : Bool := (oldIccid != "") && (newIccid != "") && (oldIccid != newIccid)
  let isLowSignal : Bool :=
    match log.last with
    | some loc =>
      match loc.gsm with
      | some g => decide (g < 10 ∧ 0 < g)
      | none => false
    | none => false
  let hasGpsPrecisionIssue : Bool :=
    match log.last with
    | some loc =>
      match loc.hdop with
      | some h => decide ((5 : ℚ) / 2 < h)
      | none => false
    | none => false
  let finalDowntime := effDowntime log
  let risk : Risk :=
    if isPowerCut then .critical
    else
      match finalDowntime with
      | some d => if d < 300 then .safe else if d < 3600 then .warning else .critical
      | none => .unknown
  let isInstallation : Bool := (log.imei_ant == "") || (jsTrim log.imei_ant == "")
  let previousLifespan : Option Int :=
    match m (mkKey log.unidad log.cambio_ts log.imei_nuevo) with
    | some v => if v = 0 then none else some v
    | none => none
  { toImeiLog := { log with downtime_seconds := finalDowntime }
    id := toString log.unit_id ++ "-" ++ toString idx
    derivedIccid := if newIccid != "" then newIccid else oldIccid
    previousIccid := oldIccid
    riskLevel := risk
    isInstallation := isInstallation
    isPowerCut := isPowerCut
    isSimChange := isSimChange
    isLowSignal := isLowSignal
    hasGpsPrecisionIssue := hasGpsPrecisionIssue
    previousImeiLifespanSeconds := previousLifespan }

/-- `filteredLogs.map((log, idx) => ...)` — map with running index. -/
def mapIdxFrom (m : String → Option Int) (i : Nat) : List ImeiLog → List EnrichedChangeLog
  | [] => []
  | x :: xs => enrichLog m i x :: mapIdxFrom m (i + 1) xs

/-- `enrichedChanges` (App.tsx lines 153-220): enrich the filtered events
and sort most-recent-first (`.sort((a, b) => b.cambio_ts - a.cambio_ts)`). -/
def enrichedChanges (raw : List ImeiLog) (f : FilterState) : List EnrichedChangeLog :=
  List.insertionSort (fun a b => b.cambio_ts ≤ a.cambio_ts)
    (mapIdxFrom (lifespanMap raw) 0 (filteredLogs raw f))

/-!
## Unit History Builder (`unitHistories`, App.tsx lines 223-279)
-/

/-- The inner `for` loop of lines 242-257: one closed interval per
adjacent pair of the chronologically sorted group. -/
def intervalsOf : List ImeiLog → List LifespanInterval
  | current :: next :: rest =>
    { imei := current.imei_nuevo
      start_ts := current.cambio_ts
      start_date := current.cambio_time
      end_ts := next.cambio_ts
      end_date := next.cambio_time
      duration_seconds := next.cambio_ts - current.cambio_ts } :: intervalsOf (next :: rest)
  | _ => []

/-- JS `Math.max` on two numbers, kept kernel-computable. -/
def ratMax (a b : ℚ) : ℚ :=
  if a ≤ b then b else a

/-- `Math.max(totalTime / (365 * 24 * 3600), 0.1)` (App.tsx line 265). -/
def yearsSpan (nowTs firstSeen : Int) : ℚ :=
  ratMax (((nowTs - firstSeen : Int) : ℚ) / (365 * 24 * 3600)) (1 / 10)

/-- The source collection of the Unit History Builder (App.tsx lines
226-228): the raw data narrowed by the search substring only. -/
def searchSource (raw : List ImeiLog) (search : String) : List ImeiLog :=
  if search == "" then raw
  else raw.filter (fun l => substrIn search.toLower.data l.unidad.toLower.data)

/-- The `grouped.forEach` body (App.tsx lines 238-276) for one unit.  The
`none` branch is unreachable: groups are built from occurrences, so every
group is non-empty. -/
def histFor (src : List ImeiLog) (nowTs : Int) (u : String) : UnitHistory :=
  let sorted := sortTS (groupOf u src)
  match sorted.getLast? with
  | some lastEvent =>
    let firstSeen := (sorted.headD lastEvent).cambio_ts
    { unidad := u
      current_imei := lastEvent.imei_nuevo
      current_start_date := lastEvent.cambio_time
      current_duration_seconds := nowTs - lastEvent.cambio_ts
      history := (intervalsOf sorted).reverse
      failure_rate_index := (sorted.length : ℚ) / yearsSpan nowTs firstSeen }
  | none =>
    { unidad := u
      current_imei := ""
      current_start_date := ""
      current_duration_seconds := 0
      history := []
      failure_rate_index := 0 }

/-- `unitHistories` (App.tsx lines 223-279): one history per unit of the
search-narrowed collection, sorted by descending current duration.  The
ambient `Date.now()` is the injected `nowTs`. -/
def unitHistories (raw : List ImeiLog) (search : String) (nowTs : Int) : List UnitHistory :=
  List.insertionSort (fun a b => b.current_duration_seconds ≤ a.current_duration_seconds)
    ((firstOccKeys (·.unidad) (searchSource raw search)).map
      (histFor (searchSource raw search) nowTs))

/-!
## Aggregate Statistics (`MetricsView` stats, src/unnamed/part_000 lines 21-75)
-/

/-- The four downtime distribution counters. -/
structure Buckets where
  under5m : Nat
  under1h : Nat
  under24h : Nat
  over24h : Nat
deriving DecidableEq

/-- The value produced by the `stats` computation of `MetricsView`. -/
structure Stats where
  totalEvents : Nat
  eventsWithDowntime : Nat
  p50 : Int
  p90 : Int
  buckets : Buckets
  topUnits : List (String × Int)
  powerCuts : Nat
  simChanges : Nat
  lemons : List UnitHistory
deriving DecidableEq

/-- `logs.filter(l => l.downtime_seconds !== null && l.downtime_seconds > 0)`. -/
def withDowntimeOf (logs : List EnrichedChangeLog) : List EnrichedChangeLog :=
  logs.filter (fun l =>
    match l.downtime_seconds with
    | some d => decide (0 < d)
    | none => false)

/-- One iteration of the bucket-counting `forEach` (part_000 lines 37-43). -/
def bucketStep (b : Buckets) (s : Int) : Buckets :=
  if s < 300 then { b with under5m := b.under5m + 1 }
  else if s < 3600 then { b with under1h := b.under1h + 1 }
  else if s < 86400 then { b with under24h := b.under24h + 1 }
  else { b with over24h := b.over24h + 1 }

/-- The bucket counters accumulated over the known-positive-downtime events. -/
def bucketsOf (withDowntime : List EnrichedChangeLog) : Buckets :=
  withDowntime.foldl (fun b l => bucketStep b (l.downtime_seconds.getD 0)) ⟨0, 0, 0, 0⟩

/-- Final value of `unitDowntimeMap` at `u` (part_000 lines 46-50). -/
def unitDowntimeSum (withDowntime : List EnrichedChangeLog) (u : String) : Int :=
  withDowntime.foldl
    (fun acc l => if l.unidad == u then acc + l.downtime_seconds.getD 0 else acc) 0

/-- `withDowntime.map(l => l.downtime_seconds!).sort((a, b) => a - b)`. -/
def downtimesSorted (withDowntime : List EnrichedChangeLog) : List Int :=
  List.insertionSort (fun a b => a ≤ b) (withDowntime.map (fun l => l.downtime_seconds.getD 0))

/-- The `stats` computation of `MetricsView` (part_000 lines 21-75).  The
second component is the state of the caller's `unitHistories` array after
the computation: `Array.prototype.sort` at lines 61-63 sorts that array
in place (the percentile index `Math.floor(length * p)` is modelled with
exact rational arithmetic). -/
def computeStats (logs : List EnrichedChangeLog) (histories : List UnitHistory) :
    Stats × List UnitHistory :=
  let withDowntime := withDowntimeOf logs
  let downtimes := downtimesSorted withDowntime
  let sortedHistories :=
    List.insertionSort (fun a b => b.failure_rate_index ≤ a.failure_rate_index) histories
  ({ totalEvents := logs.length
     eventsWithDowntime := withDowntime.length
     p50 := downtimes.getD (downtimes.length / 2) 0
     p90 := downtimes.getD (downtimes.length * 9 / 10) 0
     buckets := bucketsOf withDowntime
     topUnits :=
       (List.insertionSort (fun a b => b.2 ≤ a.2)
         ((firstOccKeys (·.unidad) withDowntime).map
           (fun u => (u, unitDowntimeSum withDowntime u)))).take 10
     powerCuts := (logs.filter (fun l => l.isPowerCut)).length
     simChanges := (logs.filter (fun l => l.isSimChange)).length
     lemons := sortedHistories.take 5 }, sortedHistories)

/-- Membership in exactly one of the four fixed downtime ranges of the
spec: `<300`, `[300, 3600)`, `[3600, 86400)`, `≥86400`. -/
def inExactlyOneBucket (d : Int) : Prop :=
  (d < 300 ∧ ¬(300 ≤ d ∧ d < 3600) ∧ ¬(3600 ≤ d ∧ d < 86400) ∧ ¬86400 ≤ d) ∨
  (¬d < 300 ∧ (300 ≤ d ∧ d < 3600) ∧ ¬(3600 ≤ d ∧ d < 86400) ∧ ¬86400 ≤ d) ∨
  (¬d < 300 ∧ ¬(300 ≤ d ∧ d < 3600) ∧ (3600 ≤ d ∧ d < 86400) ∧ ¬86400 ≤ d) ∨
  (¬d < 300 ∧ ¬(300 ≤ d ∧ d < 3600) ∧ ¬(3600 ≤ d ∧ d < 86400) ∧ 86400 ≤ d)

/-!
## Decimal-string helpers

`mkKey` concatenates decimal renderings with `"-"` separators; to reason
about key collisions we relate `Nat.toDigits` to a structural digit
function and recover the number from its digits.
-/

/-- Structural decimal digit list of a natural number. -/
def natDigits (n : Nat) : List Char :=
  if _h : n < 10 then [Nat.digitChar n]
  else natDigits (n / 10) ++ [Nat.digitChar (n % 10)]
decreasing_by
  simp_wf
  omega

/-- Numeric value of a decimal digit character. -/
def charVal (c : Char) : Nat :=
  c.toNat - 48

/-- Read a digit list back as a number. -/
def ofDigits (l : List Char) : Nat :=
  l.foldl (fun a c => 10 * a + charVal c) 0

/-!
## Concrete inputs used by counterexamples and witnesses
-/

/-- A filter configuration with every control at its initial value. -/
def defaultFilters : FilterState := {}

/-- An event whose last external voltage is a defined negative number. -/
def negVoltLog : ImeiLog :=
  { unidad := "U1", unit_id := 1, imei_ant := "A", imei_nuevo := "B", cambio_ts := 100,
    cambio_time := "d", last := some { pwr_ext := some (-1) }, downtime_seconds := some 10 }

/-- The power-cuts-only filter configuration. -/
def powerCutFilters : FilterState := { onlyPowerCuts := true }

/-- An event with voltage 3 V and downtime 10000 s (as in spec scenario 3). -/
def w1log : ImeiLog :=
  { unidad := "U1", unit_id := 1, imei_ant := "A", imei_nuevo := "B", cambio_ts := 100,
    cambio_time := "d", last := some { pwr_ext := some 3 },
    downtime_seconds := some 10000 }

/-- An event with unknown effective downtime. -/
def c2log : ImeiLog :=
  { unidad := "U2", unit_id := 2, imei_ant := "A", imei_nuevo := "B", cambio_ts := 50,
    cambio_time := "d" }

/-- A configuration with a positive `minDowntime` bound and
`onlyWithDowntime` off. -/
def c2filters : FilterState := { minDowntime := some 5 }

/-- Unit "A", first event: known downtime. -/
def c3log1 : ImeiLog :=
  { unidad := "A", unit_id := 1, imei_ant := "X", imei_nuevo := "Y", cambio_ts := 10,
    cambio_time := "d", downtime_seconds := some 100 }

/-- Unit "A", second event: unknown downtime. -/
def c3log2 : ImeiLog :=
  { unidad := "A", unit_id := 1, imei_ant := "Y", imei_nuevo := "Z", cambio_ts := 20,
    cambio_time := "d" }

/-- Multiple-changes plus with-downtime filters. -/
def c3filters : FilterState := { onlyWithDowntime := true, onlyMultipleChanges := true }

/-- Two events of one unit with equal timestamps: the recorded lifespan
between them is `0`. -/
def c4log1 : ImeiLog :=
  { unidad := "U", unit_id := 1, imei_ant := "", imei_nuevo := "A", cambio_ts := 100,
    cambio_time := "d" }

/-- Companion event of `c4log1` at the same timestamp. -/
def c4log2 : ImeiLog :=
  { unidad := "U", unit_id := 1, imei_ant := "A", imei_nuevo := "B", cambio_ts := 100,
    cambio_time := "d" }

/-- Parser witness: an accepted record (spec scenario 1). -/
def pok : ImeiLog :=
  { unidad := "P", unit_id := 1, imei_ant := "", imei_nuevo := "A", cambio_ts := 1,
    cambio_time := "d", status := "ok" }

/-- Parser witness: a decoded record with a non-ok status. -/
def pbad : ImeiLog :=
  { unidad := "P", unit_id := 1, imei_ant := "", imei_nuevo := "A", cambio_ts := 1,
    cambio_time := "d", status := "error" }

/-- Parser witness line: blank. -/
def pLineBlank : Line := { blank := true, parsed := none }

/-- Parser witness line: accepted. -/
def pLineOk : Line := { blank := false, parsed := some pok }

/-- Parser witness line: rejected status. -/
def pLineBad : Line := { blank := false, parsed := some pbad }

/-- Lifespan witness events: identifiers A → B → C at 1000, 5000, 9000
(spec scenario 2). -/
def w6e0 : ImeiLog :=
  { unidad := "U", unit_id := 1, imei_ant := "", imei_nuevo := "A", cambio_ts := 1000,
    cambio_time := "t0" }

/-- Second lifespan witness event. -/
def w6e1 : ImeiLog :=
  { unidad := "U", unit_id := 1, imei_ant := "A", imei_nuevo := "B", cambio_ts := 5000,
    cambio_time := "t1" }

/-- Third lifespan witness event. -/
def w6e2 : ImeiLog :=
  { unidad := "U", unit_id := 1, imei_ant := "B", imei_nuevo := "C", cambio_ts := 9000,
    cambio_time := "t2" }

/-- A single-event unit first seen at timestamp 0. -/
def c7log : ImeiLog :=
  { unidad := "U7", unit_id := 7, imei_ant := "", imei_nuevo := "A", cambio_ts := 0,
    cambio_time := "d" }

/-- A unit history with a low failure-rate index. -/
def h8a : UnitHistory :=
  { unidad := "H1", current_imei := "A", current_start_date := "", current_duration_seconds := 0,
    history := [], failure_rate_index := 1 }

/-- A unit history with a higher failure-rate index. -/
def h8b : UnitHistory :=
  { unidad := "H2", current_imei := "B", current_start_date := "", current_duration_seconds := 0,
    history := [], failure_rate_index := 2 }

/-- An enriched event with known downtime 900 s (spec scenario 4). -/
def e9 : EnrichedChangeLog :=
  { toImeiLog :=
      { unidad := "U9", unit_id := 9, imei_ant := "A", imei_nuevo := "B", cambio_ts := 1,
        cambio_time := "d", downtime_seconds := some 900 }
    id := "9-0", derivedIccid := "", previousIccid := "", riskLevel := .warning
    isInstallation := false, isPowerCut := false, isSimChange := false
    isLowSignal := false, hasGpsPrecisionIssue := false
    previousImeiLifespanSeconds := none }

theorem processStep_foldl_fst (lines : List Line) (acc : List ImeiLog × Nat) :
    (lines.foldl processStep acc).1 = acc.1 ++ lines.filterMap acceptedOf := by
  induction lines generalizing acc with
  | nil => simp
  | cons l ls ih =>
    simp only [List.foldl_cons, List.filterMap_cons]
    rw [ih]
    rcases acc with ⟨logs, errs⟩
    by_cases hb : l.blank
    · simp [processStep, acceptedOf, hb]
    · cases hp : l.parsed with
      | none => simp [processStep, acceptedOf, hb, hp]
      | some j =>
        by_cases hs : j.status = "ok" <;> simp [processStep, acceptedOf, hb, hp, hs]

theorem processStep_foldl_snd (lines : List Line) (acc : List ImeiLog × Nat) :
    (lines.foldl processStep acc).2 =
      acc.2 + (lines.filter (fun l => !l.blank && (acceptedOf l).isNone)).length := by
  induction lines generalizing acc with
  | nil => simp
  | cons l ls ih =>
    simp only [List.foldl_cons, List.filter_cons]
    rw [ih]
    rcases acc with ⟨logs, errs⟩
    by_cases hb : l.blank
    · simp [processStep, acceptedOf, hb]
    · cases hp : l.parsed with
      | none => simp [processStep, acceptedOf, hb, hp]; omega
      | some j =>
        by_cases hs : j.status = "ok" <;>
          (simp [processStep, acceptedOf, hb, hp, hs]; try omega)

theorem accepted_rejected_count (lines : List Line) :
    (lines.filterMap acceptedOf).length +
      (lines.filter (fun l => !l.blank && (acceptedOf l).isNone)).length =
      (lines.filter (fun l => !l.blank)).length := by
  induction lines with
  | nil => simp
  | cons l ls ih =>
    simp only [List.filterMap_cons, List.filter_cons]
    by_cases hb : l.blank
    · have ha : acceptedOf l = none := by simp [acceptedOf, hb]
      simpa [ha, hb] using ih
    · cases hp : l.parsed with
      | none =>
        have ha : acceptedOf l = none := by simp [acceptedOf, hb, hp]
        simp [ha, hb]
        omega
      | some j =>
        by_cases hs : j.status = "ok"
        · have ha : acceptedOf l = some j := by simp [acceptedOf, hb, hp, hs]
          simp [ha, hb]
          omega
        · have ha : acceptedOf l = none := by simp [acceptedOf, hb, hp, hs]
          simp [ha, hb]
          omega

/-- C5: the Parser is total — for every input, the accepted records are
exactly the non-blank lines that decode with status `"ok"` (each kept
verbatim, in order), and `accepted.length + error_count` equals the
number of non-blank lines. -/
theorem parser_totality (lines : List Line) :
    (processNdjson lines).1 = lines.filterMap acceptedOf ∧
    (processNdjson lines).1.length + (processNdjson lines).2 =
      (lines.filter (fun l => !l.blank)).length := by
  have h1 := processStep_foldl_fst lines ([], 0)
  have h2 := processStep_foldl_snd lines ([], 0)
  have h3 := accepted_rejected_count lines
  simp only [processNdjson, List.nil_append] at h1 h2 ⊢
  rw [h1, h2]
  simpa using h3

/-!
## Decimal-string lemmas: composite keys with equal unit names but
different timestamps are distinct strings.
-/

theorem digitChar_ne_dash (m : Nat) : Nat.digitChar m ≠ '-' := by
  rcases Nat.lt_or_ge m 16 with h | h
  · interval_cases m <;> decide
  · have h0 : ¬m = 0 := by omega
    have h1 : ¬m = 1 := by omega
    have h2 : ¬m = 2 := by omega
    have h3 : ¬m = 3 := by omega
    have h4 : ¬m = 4 := by omega
    have h5 : ¬m = 5 := by omega
    have h6 : ¬m = 6 := by omega
    have h7 : ¬m = 7 := by omega
    have h8 : ¬m = 8 := by omega
    have h9 : ¬m = 9 := by omega
    have h10 : ¬m = 10 := by omega
    have h11 : ¬m = 11 := by omega
    have h12 : ¬m = 12 := by omega
    have h13 : ¬m = 13 := by omega
    have h14 : ¬m = 14 := by omega
    have h15 : ¬m = 15 := by omega
    simp only [Nat.digitChar, if_neg h0, if_neg h1, if_neg h2, if_neg h3, if_neg h4,
      if_neg h5, if_neg h6, if_neg h7, if_neg h8, if_neg h9, if_neg h10, if_neg h11,
      if_neg h12, if_neg h13, if_neg h14, if_neg h15]
    decide

theorem natDigits_ne_dash (n : Nat) : ∀ c ∈ natDigits n, c ≠ '-' := by
  induction n using Nat.strong_induction_on with
  | _ n ih =>
    rw [natDigits]
    split
    · intro c hc
      simp only [List.mem_singleton] at hc
      subst hc
      exact digitChar_ne_dash _
    · intro c hc
      rw [List.mem_append] at hc
      rcases hc with hc | hc
      · exact ih (n / 10) (by omega) c hc
      · simp only [List.mem_singleton] at hc
        subst hc
        exact digitChar_ne_dash _

theorem natDigits_ne_nil (n : Nat) : natDigits n ≠ [] := by
  rw [natDigits]
  split <;> simp

theorem natDigits_lt_ten {n : Nat} (h : n < 10) : natDigits n = [Nat.digitChar n] := by
  rw [natDigits, dif_pos h]

theorem natDigits_ge_ten {n : Nat} (h : 10 ≤ n) :
    natDigits n = natDigits (n / 10) ++ [Nat.digitChar (n % 10)] := by
  rw [natDigits, dif_neg (by omega)]

theorem toDigitsCore_eq_natDigits (fuel n : Nat) (ds : List Char) (h : n < fuel) :
    Nat.toDigitsCore 10 fuel n ds = natDigits n ++ ds := by
  induction fuel generalizing n ds with
  | zero => omega
  | succ f ih =>
    rw [Nat.toDigitsCore]
    by_cases h10 : n / 10 = 0
    · simp only [h10, if_true]
      rw [natDigits_lt_ten (by omega), Nat.mod_eq_of_lt (by omega)]
      simp
    · simp only [h10, if_false]
      have hge : 10 ≤ n := by omega
      rw [ih (n / 10) _ (by omega)]
      conv_rhs => rw [natDigits_ge_ten hge]
      simp

theorem natRepr_data (n : Nat) : (Nat.repr n).data = natDigits n := by
  show (Nat.toDigits 10 n).asString.data = natDigits n
  rw [Nat.toDigits, toDigitsCore_eq_natDigits (n + 1) n [] (by omega)]
  simp [List.asString]

theorem charVal_digitChar (m : Nat) (h : m < 10) : charVal (Nat.digitChar m) = m := by
  interval_cases m <;> decide

theorem ofDigits_append_singleton (l : List Char) (c : Char) :
    ofDigits (l ++ [c]) = 10 * ofDigits l + charVal c := by
  simp [ofDigits, List.foldl_append]

theorem ofDigits_natDigits (n : Nat) : ofDigits (natDigits n) = n := by
  induction n using Nat.strong_induction_on with
  | _ n ih =>
    rw [natDigits]
    split
    · rename_i h
      simp [ofDigits, charVal_digitChar n h]
    · rename_i h
      rw [ofDigits_append_singleton, ih (n / 10) (by omega),
        charVal_digitChar (n % 10) (by omega)]
      omega

theorem natDigits_inj {a b : Nat} (h : natDigits a = natDigits b) : a = b := by
  have := congrArg ofDigits h
  rwa [ofDigits_natDigits, ofDigits_natDigits] at this

theorem append_dash_inj : ∀ {l1 l2 r1 r2 : List Char},
    '-' ∉ l1 → '-' ∉ l2 → l1 ++ '-' :: r1 = l2 ++ '-' :: r2 → l1 = l2 ∧ r1 = r2 := by
  intro l1
  induction l1 with
  | nil =>
    intro l2 r1 r2 _ h2 h
    cases l2 with
    | nil => simpa using h
    | cons b t =>
      simp only [List.nil_append, List.cons_append, List.cons.injEq] at h
      exact absurd (h.1.symm ▸ List.mem_cons_self b t) h2
  | cons a t ih =>
    intro l2 r1 r2 h1 h2 h
    cases l2 with
    | nil =>
      simp only [List.nil_append, List.cons_append, List.cons.injEq] at h
      exact absurd (h.1 ▸ List.mem_cons_self a t) h1
    | cons b t2 =>
      simp only [List.cons_append, List.cons.injEq] at h
      obtain ⟨hab, ht⟩ := h
      have hrec := ih (fun hm => h1 (List.mem_cons_of_mem a hm))
        (fun hm => h2 (List.mem_cons_of_mem b hm)) ht
      exact ⟨by rw [hab, hrec.1], hrec.2⟩

theorem intStr_dash_inj : ∀ {t1 t2 : Int} {s1 s2 : List Char},
    (toString t1).data ++ '-' :: s1 = (toString t2).data ++ '-' :: s2 →
    t1 = t2 ∧ s1 = s2 := by
  intro t1 t2 s1 s2 h
  cases t1 with
  | ofNat m1 =>
    cases t2 with
    | ofNat m2 =>
      have d1 : (toString (Int.ofNat m1)).data = natDigits m1 := natRepr_data m1
      have d2 : (toString (Int.ofNat m2)).data = natDigits m2 := natRepr_data m2
      rw [d1, d2] at h
      have := append_dash_inj (fun hm => natDigits_ne_dash m1 _ hm rfl)
        (fun hm => natDigits_ne_dash m2 _ hm rfl) h
      exact ⟨by rw [natDigits_inj this.1], this.2⟩
    | negSucc m2 =>
      have d1 : (toString (Int.ofNat m1)).data = natDigits m1 := natRepr_data m1
      have d2 : (toString (Int.negSucc m2)).data = '-' :: natDigits (m2 + 1) := by
        show (("-" : String) ++ Nat.repr (m2 + 1)).data = _
        rw [String.data_append, natRepr_data]
        rfl
      rw [d1, d2] at h
      cases hnd : natDigits m1 with
      | nil => exact absurd hnd (natDigits_ne_nil m1)
      | cons c cs =>
        rw [hnd] at h
        simp only [List.cons_append, List.cons.injEq] at h
        exact absurd h.1 (natDigits_ne_dash m1 c (hnd ▸ List.mem_cons_self c cs))
  | negSucc m1 =>
    cases t2 with
    | ofNat m2 =>
      have d1 : (toString (Int.negSucc m1)).data = '-' :: natDigits (m1 + 1) := by
        show (("-" : String) ++ Nat.repr (m1 + 1)).data = _
        rw [String.data_append, natRepr_data]
        rfl
      have d2 : (toString (Int.ofNat m2)).data = natDigits m2 := natRepr_data m2
      rw [d1, d2] at h
      cases hnd : natDigits m2 with
      | nil => exact absurd hnd (natDigits_ne_nil m2)
      | cons c cs =>
        rw [hnd] at h
        simp only [List.cons_append, List.cons.injEq] at h
        exact absurd h.1.symm (natDigits_ne_dash m2 c (hnd ▸ List.mem_cons_self c cs))
    | negSucc m2 =>
      have d1 : (toString (Int.negSucc m1)).data = '-' :: natDigits (m1 + 1) := by
        show (("-" : String) ++ Nat.repr (m1 + 1)).data = _
        rw [String.data_append, natRepr_data]
        rfl
      have d2 : (toString (Int.negSucc m2)).data = '-' :: natDigits (m2 + 1) := by
        show (("-" : String) ++ Nat.repr (m2 + 1)).data = _
        rw [String.data_append, natRepr_data]
        rfl
      rw [d1, d2] at h
      simp only [List.cons_append, List.cons.injEq] at h
      have := append_dash_inj (fun hm => natDigits_ne_dash (m1 + 1) _ hm rfl)
        (fun hm => natDigits_ne_dash (m2 + 1) _ hm rfl) h.2
      have hm : m1 + 1 = m2 + 1 := natDigits_inj this.1
      have hm12 : m1 = m2 := by omega
      exact ⟨by rw [hm12], this.2⟩

theorem mkKey_inj_ts {u : String} {t1 t2 : Int} {i1 i2 : String}
    (h : mkKey u t1 i1 = mkKey u t2 i2) : t1 = t2 := by
  unfold mkKey at h
  have hd := congrArg String.data h
  simp only [String.data_append, List.append_assoc] at hd
  have hd2 := List.append_cancel_left hd
  have hd3 : (toString t1).data ++ '-' :: i1.data =
      (toString t2).data ++ '-' :: i2.data := by
    simpa using hd2
  exact (intStr_dash_inj hd3).1

theorem mkKey_ne (u : String) {t1 t2 : Int} (i1 i2 : String) (h : t1 ≠ t2) :
    mkKey u t1 i1 ≠ mkKey u t2 i2 :=
  fun he => h (mkKey_inj_ts he)

/-!
## Claim theorems: filter engine and enricher
-/

theorem mem_mapIdxFrom {m : String → Option Int} {ev : EnrichedChangeLog} :
    ∀ {i : Nat} {l : List ImeiLog}, ev ∈ mapIdxFrom m i l →
      ∃ j x, x ∈ l ∧ ev = enrichLog m j x := by
  intro i l
  induction l generalizing i with
  | nil =>
    intro h
    simp [mapIdxFrom] at h
  | cons x xs ih =>
    intro h
    rw [mapIdxFrom] at h
    rcases List.mem_cons.mp h with h | h
    · exact ⟨i, x, List.mem_cons_self x xs, h⟩
    · obtain ⟨j, y, hy, he⟩ := ih h
      exact ⟨j, y, List.mem_cons_of_mem x hy, he⟩

theorem enrichLog_risk_powerCut (m : String → Option Int) (i : Nat) (log : ImeiLog)
    (loc : LocationData) (hlast : log.last = some loc)
    (v : ℚ) (hv : loc.pwr_ext = some v) (h0 : 0 ≤ v) (h5 : v < 5) :
    (enrichLog m i log).riskLevel = .critical := by
  simp [enrichLog, hlast, hv, h0, h5]

/-- C1 (amended): for every enriched event whose last external voltage is
a defined number in the range `[0, 5)`, the risk tier is `critical`,
regardless of the event's downtime. -/
theorem risk_tier_precedence (raw : List ImeiLog) (f : FilterState)
    (ev : EnrichedChangeLog) (hev : ev ∈ enrichedChanges raw f)
    (loc : LocationData) (hlast : ev.last = some loc)
    (v : ℚ) (hv : loc.pwr_ext = some v) (h0 : 0 ≤ v) (h5 : v < 5) :
    ev.riskLevel = .critical := by
  unfold enrichedChanges at hev
  obtain ⟨j, x, hx, rfl⟩ := mem_mapIdxFrom ((List.perm_insertionSort _ _).mem_iff.mp hev)
  exact enrichLog_risk_powerCut _ j x loc hlast v hv h0 h5

/-- C1 (witness): an event with voltage 3 and downtime 10000 is enriched
with risk tier `critical`. -/
theorem risk_tier_precedence_witness :
    (enrichLog (lifespanMap [w1log]) 0 w1log).riskLevel = .critical :=
  risk_tier_precedence [w1log] defaultFilters _
    (by
      have h : enrichedChanges [w1log] defaultFilters =
          [enrichLog (lifespanMap [w1log]) 0 w1log] := by decide
      rw [h]
      exact List.mem_singleton_self _)
    { pwr_ext := some 3 } (by decide) 3 (by decide) (by decide) (by decide)

/-- C1 (counterexample): an event with defined negative voltage `-1 < 5`
and downtime 10 is enriched with risk tier `safe`, not `critical` — the
enricher additionally requires the voltage to be at least 0. -/
theorem risk_tier_negative_voltage :
    negVoltLog.last.bind (fun l => l.pwr_ext) = some (-1) ∧ ((-1 : ℚ) < 5) ∧
    (enrichedChanges [negVoltLog] defaultFilters).map (fun e => e.riskLevel) = [.safe] :=
  ⟨by decide, by decide, by decide⟩

/-- C10: an event whose last external voltage is the defined negative
number `-1` is retained by the `onlyPowerCuts` filter (which accepts any
defined voltage below 5) while the enricher sets its `isPowerCut` flag to
`false` (it additionally requires the voltage to be at least 0). -/
theorem power_cut_filter_enricher_divergence :
    negVoltLog.last.bind (fun l => l.pwr_ext) = some (-1) ∧
    filteredLogs [negVoltLog] powerCutFilters = [negVoltLog] ∧
    (enrichedChanges [negVoltLog] powerCutFilters).map (fun e => e.isPowerCut) = [false] :=
  ⟨by decide, by decide, by decide⟩

/-- C2 (amended): for an event with unknown effective downtime the bound
checks compare against a substituted 0, so the `minDowntime` check
excludes the event exactly when a bound greater than 0 is set, and the
`maxDowntime` check excludes it exactly when a bound less than 0 is set. -/
theorem null_downtime_bounds (f : FilterState) (log : ImeiLog)
    (h : effDowntime log = none) :
    (minDowntimeOk f log = false ↔ ∃ m, f.minDowntime = some m ∧ 0 < m) ∧
    (maxDowntimeOk f log = false ↔ ∃ m, f.maxDowntime = some m ∧ m < 0) := by
  constructor
  · cases hm : f.minDowntime with
    | none => simp [minDowntimeOk, hm]
    | some m => simp [minDowntimeOk, hm, h]
  · cases hm : f.maxDowntime with
    | none => simp [maxDowntimeOk, hm]
    | some m => simp [maxDowntimeOk, hm, h]

/-- C2 (witness): instantiation of `null_downtime_bounds` at the concrete
configuration with `minDowntime = 5` and an event with unknown downtime. -/
theorem null_downtime_bounds_witness :
    (minDowntimeOk c2filters c2log = false ↔ ∃ m, c2filters.minDowntime = some m ∧ 0 < m) ∧
    (maxDowntimeOk c2filters c2log = false ↔ ∃ m, c2filters.maxDowntime = some m ∧ m < 0) :=
  null_downtime_bounds c2filters c2log (by decide)

/-- C2 (counterexample): with `onlyWithDowntime` off and `minDowntime`
set to 5, an event with unknown effective downtime is excluded by the
bound checks, contradicting the claim that it never is. -/
theorem null_downtime_excluded_by_min_bound :
    c2filters.onlyWithDowntime = false ∧ effDowntime c2log = none ∧
    minDowntimeOk c2filters c2log = false ∧
    filteredLogs [c2log] c2filters = [] :=
  ⟨rfl, by decide, by decide, by decide⟩

theorem filterPred_counts_irrel (f : FilterState) (h : f.onlyMultipleChanges = false)
    (c c' : String → Nat) (log : ImeiLog) :
    filterPred f c log = filterPred f c' log := by
  unfold filterPred
  rw [h]
  simp

/-- C3 (amended): with `onlyMultipleChanges` disabled, filtering is
idempotent: filtering an already-filtered collection with the same
configuration yields the same collection. -/
theorem filter_idempotent_no_multi (raw : List ImeiLog) (f : FilterState)
    (h : f.onlyMultipleChanges = false) :
    filteredLogs (filteredLogs raw f) f = filteredLogs raw f := by
  unfold filteredLogs
  rw [List.filter_filter]
  apply List.filter_congr
  intro a _
  rw [filterPred_counts_irrel f h _ (unitChangeCounts raw) a]
  exact Bool.and_self _

/-- C3 (witness): instantiation of `filter_idempotent_no_multi` at a
concrete collection and configuration. -/
theorem filter_idempotent_no_multi_witness :
    filteredLogs (filteredLogs [c3log1, c3log2] defaultFilters) defaultFilters =
      filteredLogs [c3log1, c3log2] defaultFilters :=
  filter_idempotent_no_multi [c3log1, c3log2] defaultFilters rfl

/-- C3 (counterexample): with `onlyMultipleChanges` and `onlyWithDowntime`
both enabled, unit "A" has two events of which only one has known
downtime; the first pass keeps that one event, and the second pass drops
it because the unit now counts a single event in the collection the
Filter Engine is given, so filtering is not idempotent. -/
theorem filter_not_idempotent_multi :
    filteredLogs [c3log1, c3log2] c3filters = [c3log1] ∧
    filteredLogs (filteredLogs [c3log1, c3log2] c3filters) c3filters ≠
      filteredLogs [c3log1, c3log2] c3filters :=
  ⟨by decide, by decide⟩

/-!
## Claim theorems: lifespan lookup in the enricher
-/

theorem enrichLog_prevLifespan (m : String → Option Int) (i : Nat) (log : ImeiLog) :
    (enrichLog m i log).previousImeiLifespanSeconds =
      match m (mkKey log.unidad log.cambio_ts log.imei_nuevo) with
      | some v => if v = 0 then none else some v
      | none => none := rfl

/-- C4 (amended): each enriched event's `previousImeiLifespanSeconds`
equals the Lifespan Calculator's value for its composite key when that
value is present and non-zero; it is null when the key is absent, and —
because the source uses `|| null` rather than a null check — also when
the stored value is 0. -/
theorem previous_lifespan_lookup (raw : List ImeiLog) (f : FilterState)
    (ev : EnrichedChangeLog) (hev : ev ∈ enrichedChanges raw f) :
    (∀ v : Int, lifespanMap raw (mkKey ev.unidad ev.cambio_ts ev.imei_nuevo) = some v →
      v ≠ 0 → ev.previousImeiLifespanSeconds = some v) ∧
    (lifespanMap raw (mkKey ev.unidad ev.cambio_ts ev.imei_nuevo) = none →
      ev.previousImeiLifespanSeconds = none) ∧
    (lifespanMap raw (mkKey ev.unidad ev.cambio_ts ev.imei_nuevo) = some 0 →
      ev.previousImeiLifespanSeconds = none) := by
  unfold enrichedChanges at hev
  obtain ⟨j, x, hx, rfl⟩ := mem_mapIdxFrom ((List.perm_insertionSort _ _).mem_iff.mp hev)
  rw [enrichLog_prevLifespan]
  refine ⟨?_, ?_, ?_⟩
  · intro v hv hv0
    rw [show lifespanMap raw (mkKey (enrichLog (lifespanMap raw) j x).unidad
      (enrichLog (lifespanMap raw) j x).cambio_ts
      (enrichLog (lifespanMap raw) j x).imei_nuevo) =
        lifespanMap raw (mkKey x.unidad x.cambio_ts x.imei_nuevo) from rfl] at hv
    rw [hv]
    simp [hv0]
  · intro hnone
    rw [show lifespanMap raw (mkKey (enrichLog (lifespanMap raw) j x).unidad
      (enrichLog (lifespanMap raw) j x).cambio_ts
      (enrichLog (lifespanMap raw) j x).imei_nuevo) =
        lifespanMap raw (mkKey x.unidad x.cambio_ts x.imei_nuevo) from rfl] at hnone
    rw [hnone]
  · intro h0
    rw [show lifespanMap raw (mkKey (enrichLog (lifespanMap raw) j x).unidad
      (enrichLog (lifespanMap raw) j x).cambio_ts
      (enrichLog (lifespanMap raw) j x).imei_nuevo) =
        lifespanMap raw (mkKey x.unidad x.cambio_ts x.imei_nuevo) from rfl] at h0
    rw [h0]
    simp

/-- C4 (witness): the third event of the three-event unit receives the
lifespan 4000 recorded for its key. -/
theorem previous_lifespan_lookup_witness :
    (enrichLog (lifespanMap [w6e0, w6e1, w6e2]) 2 w6e2).previousImeiLifespanSeconds =
      some 4000 :=
  (previous_lifespan_lookup [w6e0, w6e1, w6e2] defaultFilters _
    (by
      have h : enrichedChanges [w6e0, w6e1, w6e2] defaultFilters =
          [enrichLog (lifespanMap [w6e0, w6e1, w6e2]) 2 w6e2,
           enrichLog (lifespanMap [w6e0, w6e1, w6e2]) 1 w6e1,
           enrichLog (lifespanMap [w6e0, w6e1, w6e2]) 0 w6e0] := by decide
      rw [h]
      exact List.mem_cons_self _ _)).1 4000 (by decide) (by decide)

/-- C4 (counterexample): with two events of one unit at the same
timestamp, the map holds value 0 for the second event's key, yet the
enriched `previousImeiLifespanSeconds` is null — the claim that the field
is null exactly when the key is absent fails. -/
theorem previous_lifespan_zero_dropped :
    lifespanMap [c4log1, c4log2]
      (mkKey c4log2.unidad c4log2.cambio_ts c4log2.imei_nuevo) = some 0 ∧
    (enrichedChanges [c4log1, c4log2] defaultFilters).map
      (fun e => (e.imei_nuevo, e.previousImeiLifespanSeconds)) =
      [("A", none), ("B", none)] :=
  ⟨by decide, by decide⟩

/-- C5 (witness): instantiation of `parser_totality` on a blank line, an
accepted line and a rejected line. -/
theorem parser_totality_witness :
    (processNdjson [pLineBlank, pLineOk, pLineBad]).1 =
      [pLineBlank, pLineOk, pLineBad].filterMap acceptedOf ∧
    (processNdjson [pLineBlank, pLineOk, pLineBad]).1.length +
      (processNdjson [pLineBlank, pLineOk, pLineBad]).2 =
      ([pLineBlank, pLineOk, pLineBad].filter (fun l => !l.blank)).length :=
  parser_totality [pLineBlank, pLineOk, pLineBad]

/-!
## Claim theorems: Lifespan Calculator consistency
-/

theorem sortTS_three {a b c : ImeiLog} (hab : a.cambio_ts < b.cambio_ts)
    (hbc : b.cambio_ts < c.cambio_ts) (l : List ImeiLog)
    (hl : l = [a, b, c] ∨ l = [a, c, b] ∨ l = [b, a, c] ∨ l = [b, c, a] ∨
      l = [c, a, b] ∨ l = [c, b, a]) :
    sortTS l = [a, b, c] := by
  have h1 : a.cambio_ts ≤ b.cambio_ts := le_of_lt hab
  have h2 : b.cambio_ts ≤ c.cambio_ts := le_of_lt hbc
  have h3 : a.cambio_ts ≤ c.cambio_ts := le_of_lt (lt_trans hab hbc)
  have h4 : ¬b.cambio_ts ≤ a.cambio_ts := not_le.mpr hab
  have h5 : ¬c.cambio_ts ≤ b.cambio_ts := not_le.mpr hbc
  have h6 : ¬c.cambio_ts ≤ a.cambio_ts := not_le.mpr (lt_trans hab hbc)
  rcases hl with rfl | rfl | rfl | rfl | rfl | rfl <;>
    simp [sortTS, List.insertionSort, List.orderedInsert, h1, h2, h3, h4, h5, h6]

/-- C6: for a unit whose events occur (in any input order) at pairwise
distinct timestamps `t0 < t1 < t2`, the Lifespan Calculator records
`t1 - t0` under the key of the event at `t1`, `t2 - t1` under the key of
the event at `t2`, and records nothing for the unit's first event. -/
theorem lifespan_consistency (u : String) (e0 e1 e2 : ImeiLog) (raw : List ImeiLog)
    (hu0 : e0.unidad = u) (hu1 : e1.unidad = u) (hu2 : e2.unidad = u)
    (h01 : e0.cambio_ts < e1.cambio_ts) (h12 : e1.cambio_ts < e2.cambio_ts)
    (hraw : raw = [e0, e1, e2] ∨ raw = [e0, e2, e1] ∨ raw = [e1, e0, e2] ∨
      raw = [e1, e2, e0] ∨ raw = [e2, e0, e1] ∨ raw = [e2, e1, e0]) :
    lifespanMap raw (mkKey u e1.cambio_ts e1.imei_nuevo) =
      some (e1.cambio_ts - e0.cambio_ts) ∧
    lifespanMap raw (mkKey u e2.cambio_ts e2.imei_nuevo) =
      some (e2.cambio_ts - e1.cambio_ts) ∧
    lifespanMap raw (mkKey u e0.cambio_ts e0.imei_nuevo) = none := by
  have hkeys : firstOccKeys (fun l => l.unidad) raw = [u] := by
    rcases hraw with rfl | rfl | rfl | rfl | rfl | rfl <;>
      simp [firstOccKeys, hu0, hu1, hu2]
  have hgroup : groupOf u raw = raw := by
    rcases hraw with rfl | rfl | rfl | rfl | rfl | rfl <;>
      simp [groupOf, hu0, hu1, hu2]
  have hsort : sortTS (groupOf u raw) = [e0, e1, e2] := by
    rw [hgroup]
    exact sortTS_three h01 h12 raw hraw
  have hmap : lifespanMap raw =
      mapSet (mapSet (fun _ => none)
        (mkKey e1.unidad e1.cambio_ts e1.imei_nuevo) (e1.cambio_ts - e0.cambio_ts))
        (mkKey e2.unidad e2.cambio_ts e2.imei_nuevo) (e2.cambio_ts - e1.cambio_ts) := by
    unfold lifespanMap
    rw [hkeys, List.foldl_cons, List.foldl_nil, hsort]
    rfl
  have hne12 : mkKey u e1.cambio_ts e1.imei_nuevo ≠ mkKey u e2.cambio_ts e2.imei_nuevo :=
    mkKey_ne u _ _ (by omega)
  have hne02 : mkKey u e0.cambio_ts e0.imei_nuevo ≠ mkKey u e2.cambio_ts e2.imei_nuevo :=
    mkKey_ne u _ _ (by omega)
  have hne01 : mkKey u e0.cambio_ts e0.imei_nuevo ≠ mkKey u e1.cambio_ts e1.imei_nuevo :=
    mkKey_ne u _ _ (by omega)
  rw [hmap, hu1, hu2]
  refine ⟨?_, ?_, ?_⟩
  · simp [mapSet, hne12]
  · simp [mapSet]
  · simp [mapSet, hne02, hne01]

/-- C6 (witness): identifiers A → B → C at timestamps 1000 < 5000 < 9000,
presented out of order: lifespans 4000 and 4000 are recorded under the
keys of the second and third events, nothing for the first. -/
theorem lifespan_consistency_witness :
    lifespanMap [w6e1, w6e0, w6e2] (mkKey "U" 5000 "B") = some (5000 - 1000) ∧
    lifespanMap [w6e1, w6e0, w6e2] (mkKey "U" 9000 "C") = some (9000 - 5000) ∧
    lifespanMap [w6e1, w6e0, w6e2] (mkKey "U" 1000 "A") = none :=
  lifespan_consistency "U" w6e0 w6e1 w6e2 [w6e1, w6e0, w6e2] rfl rfl rfl
    (by decide) (by decide) (by decide)

/-!
## Claim theorems: failure-rate floor, statistics purity, buckets
-/

theorem yearsSpan_ge_floor (t fs : Int) : (1 : ℚ) / 10 ≤ yearsSpan t fs := by
  unfold yearsSpan ratMax
  split
  · exact le_refl _
  · next h => exact le_of_lt (not_le.mp h)

/-- C7 (amended): the failure-rate denominator is
`max((now - first_event_timestamp) / seconds_per_year, 0.1)`, which never
drops below `0.1`; consequently, for a unit with exactly one event whose
age is at most 0.1 years (3153600 s), `failure_rate_index` equals
`event_count / 0.1`. -/
theorem failure_rate_floor (src : List ImeiLog) (nowTs : Int) (u : String) (e : ImeiLog)
    (hg : groupOf u src = [e]) (hnow : nowTs - e.cambio_ts ≤ 3153600) :
    (histFor src nowTs u).failure_rate_index = 1 / (1 / 10 : ℚ) ∧
    (1 : ℚ) / 10 ≤ yearsSpan nowTs e.cambio_ts := by
  have hsingle : sortTS (groupOf u src) = [e] := by rw [hg]; rfl
  have hy : yearsSpan nowTs e.cambio_ts = 1 / 10 := by
    unfold yearsSpan ratMax
    rw [if_pos]
    have hc : ((nowTs - e.cambio_ts : Int) : ℚ) ≤ 3153600 := by exact_mod_cast hnow
    rw [div_le_iff₀ (by norm_num)]
    calc ((nowTs - e.cambio_ts : Int) : ℚ) ≤ 3153600 := hc
      _ = 1 / 10 * (365 * 24 * 3600) := by norm_num
  refine ⟨?_, yearsSpan_ge_floor _ _⟩
  simp only [histFor, hsingle]
  simp [hy]

/-- C7 (witness): a unit with a single event 100 seconds old hits the
0.1-year floor (spec scenario 6). -/
theorem failure_rate_floor_witness :
    (histFor [c7log] 100 "U7").failure_rate_index = 1 / (1 / 10 : ℚ) ∧
    (1 : ℚ) / 10 ≤ yearsSpan 100 c7log.cambio_ts :=
  failure_rate_floor [c7log] 100 "U7" c7log rfl (by decide)

/-- C7 (counterexample): a unit with exactly one event observed one year
ago has `failure_rate_index = 1`, not `event_count / 0.1 = 10`: the
denominator floor only applies to observation windows shorter than 0.1
years. -/
theorem failure_rate_old_single_event :
    groupOf "U7" [c7log] = [c7log] ∧
    (unitHistories [c7log] "" 31536000).map (fun h => h.failure_rate_index) = [1] ∧
    (1 : ℚ) ≠ 1 / (1 / 10) := by
  have hy : yearsSpan 31536000 0 = 1 := by
    have hx : (((31536000 - 0 : Int) : ℚ) / (365 * 24 * 3600)) = 1 := by norm_num
    unfold yearsSpan
    rw [hx]
    unfold ratMax
    rw [if_neg (by norm_num)]
  have h2 : sortTS (groupOf "U7" [c7log]) = [c7log] := rfl
  have h3 : (histFor [c7log] 31536000 "U7").failure_rate_index = 1 := by
    simp only [histFor, h2]
    simp only [List.getLast?_singleton, List.headD_cons, List.length_singleton]
    rw [show c7log.cambio_ts = 0 from rfl, hy]
    norm_num
  have h1 : unitHistories [c7log] "" 31536000 = [histFor [c7log] 31536000 "U7"] := rfl
  refine ⟨rfl, ?_, by norm_num⟩
  rw [h1, List.map_cons, List.map_nil, h3]

/-- C8 (code bug): the aggregate-statistics computation sorts the
caller's `unitHistories` array in place (`Array.prototype.sort` at
part_000 lines 61-63): on an input ordered by ascending failure rate the
collection comes back reordered, contradicting the documented purity of
the aggregation. -/
theorem stats_sorts_histories_in_place :
    (computeStats [] [h8a, h8b]).2 ≠ [h8a, h8b] ∧
    (computeStats [] [h8a, h8b]).2 = [h8b, h8a] :=
  ⟨by decide, by decide⟩

theorem bucketStep_sum (b : Buckets) (d : Int) :
    (bucketStep b d).under5m + (bucketStep b d).under1h + (bucketStep b d).under24h +
      (bucketStep b d).over24h =
      b.under5m + b.under1h + b.under24h + b.over24h + 1 := by
  unfold bucketStep
  repeat' split
  all_goals simp_arith

theorem bucket_foldl_sum (l : List EnrichedChangeLog) (b : Buckets) :
    ((l.foldl (fun bk lg => bucketStep bk (lg.downtime_seconds.getD 0)) b).under5m +
      (l.foldl (fun bk lg => bucketStep bk (lg.downtime_seconds.getD 0)) b).under1h +
      (l.foldl (fun bk lg => bucketStep bk (lg.downtime_seconds.getD 0)) b).under24h +
      (l.foldl (fun bk lg => bucketStep bk (lg.downtime_seconds.getD 0)) b).over24h) =
      b.under5m + b.under1h + b.under24h + b.over24h + l.length := by
  induction l generalizing b with
  | nil => simp
  | cons x xs ih =>
    rw [List.foldl_cons, ih (bucketStep b (x.downtime_seconds.getD 0)), bucketStep_sum]
    simp
    omega

theorem bucketsOf_sum (l : List EnrichedChangeLog) :
    (bucketsOf l).under5m + (bucketsOf l).under1h + (bucketsOf l).under24h +
      (bucketsOf l).over24h = l.length := by
  unfold bucketsOf
  rw [bucket_foldl_sum]
  simp

/-- C9: every event with known positive downtime lies in exactly one of
the four fixed ranges, and the four bucket counters of the statistics
computation sum to the number of events with known positive downtime. -/
theorem bucket_partition (logs : List EnrichedChangeLog) (histories : List UnitHistory) :
    (∀ l ∈ logs, ∀ d : Int, l.downtime_seconds = some d → 0 < d → inExactlyOneBucket d) ∧
    (computeStats logs histories).1.buckets.under5m +
      (computeStats logs histories).1.buckets.under1h +
      (computeStats logs histories).1.buckets.under24h +
      (computeStats logs histories).1.buckets.over24h =
      (computeStats logs histories).1.eventsWithDowntime := by
  constructor
  · intro l _ d _ hd
    unfold inExactlyOneBucket
    omega
  · have hb : (computeStats logs histories).1.buckets = bucketsOf (withDowntimeOf logs) := rfl
    have he : (computeStats logs histories).1.eventsWithDowntime =
        (withDowntimeOf logs).length := rfl
    rw [hb, he]
    exact bucketsOf_sum _

/-- C9 (witness): instantiation at a single event with downtime 900 s —
one bucket count is 1, the sum matches, and 900 lies in exactly one
range. -/
theorem bucket_partition_witness :
    ((computeStats [e9] []).1.buckets.under5m + (computeStats [e9] []).1.buckets.under1h +
      (computeStats [e9] []).1.buckets.under24h + (computeStats [e9] []).1.buckets.over24h =
      (computeStats [e9] []).1.eventsWithDowntime) ∧ inExactlyOneBucket 900 :=
  ⟨(bucket_partition [e9] []).2,
    (bucket_partition [e9] []).1 e9 (List.mem_singleton_self e9) 900 rfl (by decide)⟩
